import Mathlib

/-!
Verification of the core template engine (`template.go`): the delimiter-driven
lexer state machine, the node model, and the cursor-based execution engine.

The embedding is shallow and executable:
* the template source is a list of characters (`List Char`), indexed like Go's
  byte indexing (all inputs considered here are ASCII);
* the external collaborators that live outside `template.go` — the expression
  compiler (`newExpr`), the global tag registry (`Tags`) — are passed in as an
  explicit `Externals` record, mirroring their interface boundary;
* Go's in-place mutation of the `Template` struct becomes explicit state
  passing: each Go method returns the updated `Template` together with its
  Go return values;
* a tag handler's `Execute` callback is modelled as a pure function of the
  argument text and the context (in Go it also receives the `*Template`
  handle, which cooperative control tags use to move the shared cursor; that
  protocol belongs to the external handlers, outside this file's scope);
  the nilable `Ignore` callback is modelled by a presence flag, and the
  engine records every invocation of the hook (with the argument text it was
  passed) in an explicit notification log.
-/

/-- Variable context: an external name-to-value mapping, opaque to the core. -/
abbrev Context := List (String × String)

/-- Go's `unicode.IsSpace` on the ASCII range, as used by `strings.TrimSpace`. -/
def isGoSpace (c : Char) : Bool :=
  c = ' ' || c = '\t' || c = '\n' || c = '\x0b' || c = '\x0c' || c = '\r'

/-- `strings.TrimSpace` on a character list. -/
def trimSpace (s : List Char) : List Char :=
  ((s.dropWhile isGoSpace).reverse.dropWhile isGoSpace).reverse

/-- Index of the first space character, if any (`strings.Index(s, " ")`). -/
def indexOfSpace : List Char → Option Nat
  | [] => none
  | c :: t => if c = ' ' then some 0 else (indexOfSpace t).map (· + 1)

/-- `strings.SplitN(s, " ", 2)`: at most two pieces, split at the first space. -/
def splitN2Space (s : List Char) : List (List Char) :=
  match indexOfSpace s with
  | none => [s]
  | some i => [s.take i, s.drop (i + 1)]

/-- Compiled expression, built by the external evaluator (`newExpr`); it
exposes `evalString` and the `addFilter` mutator used for auto-escaping. -/
structure Expr where
  evalString : Context → Except String String
  filters : List String

def Expr.addFilter (e : Expr) (name : String) : Expr :=
  { e with filters := e.filters ++ [name] }

/-- External tag-handler capability set: `Execute` renders the tag, the
optional `Ignore` hook is notified when the tag is skipped over (modelled as
a presence flag; invocations are logged by the engine). -/
structure TagHandler where
  Execute : String → Context → Except String String
  Ignore : Bool

/-- The three node kinds of the parsed template (`contentNode`, `filterNode`,
`tagNode` in the source, unified by the `node` interface). A `tagNode`'s
handler is `none` for a registered structural marker (registry maps the name
to a nil handler) — constructor fields follow the Go structs. -/
inductive node where
  | contentNode (line col : Nat) (content : String)
  | filterNode (line col : Nat) (content : String) (e : Expr)
  | tagNode (line col : Nat) (content : String)
      (tagname tagargs : String) (taghandler : Option TagHandler)

def node.getLine : node → Nat
  | .contentNode l _ _ => l
  | .filterNode l _ _ _ => l
  | .tagNode l _ _ _ _ _ => l

def node.getCol : node → Nat
  | .contentNode _ c _ => c
  | .filterNode _ c _ _ => c
  | .tagNode _ c _ _ _ _ => c

def node.getContent : node → String
  | .contentNode _ _ s => s
  | .filterNode _ _ s _ => s
  | .tagNode _ _ s _ _ _ => s

/-- The template locator capability (`templateLocator`), abstracted to a pure
name-to-source resolution. -/
abbrev TemplateLocator := String → Except String String

/-- The `Template` struct: raw source plus lexer state (`pos`, `start`,
`length`, `line`, `col`, `err`) plus the execution state (`nodes`,
`node_pos`). -/
structure Template where
  name : String
  parsed : Bool
  raw : List Char
  rawLen : Nat
  pos : Nat
  start : Nat
  length : Nat
  err : String
  line : Nat
  col : Nat
  autosafe : Bool
  nodes : List node
  node_pos : Nat
  locator : Option TemplateLocator
  internal_context : Context

/-- The external collaborators of `template.go`: the expression compiler and
the global tag registry (`Tags`; a name mapped to `none` is a registered
structural marker with a nil handler). -/
structure Externals where
  newExpr : String → Except String Expr
  Tags : List (String × Option TagHandler)

/-- Map lookup in the tag registry (`Tags[tagname]` with its `ok` flag). -/
def lookupTag : List (String × Option TagHandler) → String → Option (Option TagHandler)
  | [], _ => none
  | (k, v) :: rest, name => if k = name then some v else lookupTag rest name

def Template.hasReachedEnd (tpl : Template) (rel : Nat) : Bool :=
  tpl.pos + rel ≥ tpl.rawLen

def Template.getChar (tpl : Template) (rel : Nat) : Option Char :=
  if tpl.hasReachedEnd rel then none
  else some (tpl.raw.getD (tpl.pos + rel) ' ')

/-- `updatePosition`: called after every change of `pos`; reports `false`
when the cursor passed the end of the buffer. -/
def Template.updatePosition (tpl : Template) : Template × Bool :=
  if tpl.hasReachedEnd 0 then (tpl, false)
  else if tpl.raw.getD tpl.pos ' ' = '\n' then
    ({ tpl with line := tpl.line + 1, col := 0 }, true)
  else
    ({ tpl with col := tpl.col + 1 }, true)

/-- `fastForward`: advance one byte at a time, updating line/column after
each single-byte move, stopping early when the end is passed. -/
def Template.fastForward : Template → Nat → Template × Bool
  | tpl, 0 => (tpl, true)
  | tpl, n + 1 =>
    let tpl := { tpl with pos := tpl.pos + 1 }
    match tpl.updatePosition with
    | (tpl, false) => (tpl, false)
    | (tpl, true) => tpl.fastForward n

/-- The captured region `raw[start : start+length]`. -/
def Template.capture (tpl : Template) : List Char :=
  (tpl.raw.drop tpl.start).take tpl.length

/-- `addContentNode`: flush the accumulated literal (if any) as a
`contentNode`. -/
def addContentNode (tpl : Template) : Template :=
  if tpl.length = 0 then tpl
  else
    let cn := node.contentNode tpl.line tpl.col (String.mk tpl.capture)
    { tpl with start := tpl.pos, length := 0, nodes := tpl.nodes ++ [cn] }

/-- `addFilterNode`: build a `filterNode` from the captured region; the
returned `Option String` is the Go error return. -/
def addFilterNode (exts : Externals) (tpl : Template) : Template × Option String :=
  if tpl.length = 0 then (tpl, some "Empty filter")
  else
    let content := String.mk (trimSpace tpl.capture)
    match exts.newExpr content with
    | .error err => (tpl, some err)
    | .ok e =>
      let e := if tpl.autosafe then e.addFilter "safe" else e
      let fn := node.filterNode tpl.line tpl.col content e
      ({ tpl with start := tpl.pos, length := 0, nodes := tpl.nodes ++ [fn] }, none)

/-- `addTagNode`: trim the captured region, split off the tag name at the
first space (`strings.SplitN(content, " ", 2)`), resolve it in the registry,
store the handler and the trimmed argument text. -/
def addTagNode (exts : Externals) (tpl : Template) : Template × Option String :=
  if tpl.length = 0 then (tpl, some "Empty tag")
  else
    let content := trimSpace tpl.capture
    let args := splitN2Space content
    if args.length < 1 then (tpl, some "Tag must contain at least a name")
    else
      let tagname := String.mk (args.headD [])
      let tagargs := if args.length = 2 then String.mk (args.getD 1 []) else ""
      match lookupTag exts.Tags tagname with
      | none => (tpl, some ("Tag '" ++ tagname ++ "' does not exist"))
      | some tag =>
        let tn := node.tagNode tpl.line tpl.col (String.mk content)
          tagname (String.mk (trimSpace tagargs.data)) tag
        ({ tpl with start := tpl.pos, length := 0, nodes := tpl.nodes ++ [tn] }, none)

/-- The lexer's mutually-referential scanning states (`processContent`,
`processComment`, `processFilter`, `processTag`). -/
inductive LexState where
  | content
  | comment
  | filter
  | tag

/-- One step of the lexer trampoline: the Go `stateFunc` of the current
state, returning the updated template and the next state (`none` = terminal). -/
def lexStep (exts : Externals) : LexState → Template → Template × Option LexState
  | .comment, tpl =>
    match tpl.getChar 0 with
    | none => ({ tpl with err := "File end reached within comment" }, none)
    | some c =>
      if c = '#' then
        match tpl.getChar 1 with
        | none => ({ tpl with err := "File end reached within comment" }, none)
        | some nc =>
          if nc = '\x7d' then
            let tpl := (tpl.fastForward 2).1
            ({ tpl with start := tpl.pos }, some .content)
          else ((tpl.fastForward 1).1, some .comment)
      else ((tpl.fastForward 1).1, some .comment)
  | .filter, tpl =>
    match tpl.getChar 0 with
    | none => ({ tpl with err := "File end reached within filter" }, none)
    | some c =>
      if c = '\x7d' then
        match tpl.getChar 1 with
        | none => ({ tpl with err := "File end reached within filter" }, none)
        | some nc =>
          if nc = '\x7d' then
            match addFilterNode exts tpl with
            | (tpl, some e) => ({ tpl with err := e }, none)
            | (tpl, none) =>
              let tpl := (tpl.fastForward 2).1
              ({ tpl with start := tpl.pos }, some .content)
          else ((({ tpl with length := tpl.length + 1 }).fastForward 1).1, some .filter)
      else ((({ tpl with length := tpl.length + 1 }).fastForward 1).1, some .filter)
  | .tag, tpl =>
    match tpl.getChar 0 with
    | none => ({ tpl with err := "File end reached within tag" }, none)
    | some c =>
      if c = '%' then
        match tpl.getChar 1 with
        | none => ({ tpl with err := "File end reached within tag" }, none)
        | some nc =>
          if nc = '\x7d' then
            match addTagNode exts tpl with
            | (tpl, some e) => ({ tpl with err := e }, none)
            | (tpl, none) =>
              let tpl := (tpl.fastForward 2).1
              ({ tpl with start := tpl.pos }, some .content)
          else (((({ tpl with length := tpl.length + 1 }).fastForward 1).1), some .tag)
      else (((({ tpl with length := tpl.length + 1 }).fastForward 1).1), some .tag)
  | .content, tpl =>
    match tpl.getChar 0 with
    | none => (addContentNode tpl, none)
    | some c =>
      if c = '\x7b' then
        match tpl.getChar 1 with
        | none => ({ tpl with err := "File end reached (after opening '\x7b')" }, none)
        | some nc =>
          let tpl := (tpl.fastForward 2).1
          if nc = '#' then
            let tpl := addContentNode tpl
            ({ tpl with start := tpl.pos }, some .comment)
          else if nc = '%' then
            let tpl := addContentNode tpl
            ({ tpl with start := tpl.pos }, some .tag)
          else if nc = '\x7b' then
            let tpl := addContentNode tpl
            ({ tpl with start := tpl.pos }, some .filter)
          else
            ({ tpl with err := "Unknown open command ('" ++ String.mk [nc] ++ "')." }, none)
      else (((({ tpl with length := tpl.length + 1 }).fastForward 1).1), some .content)

/-- The trampoline of `parse`: `state := processContent(tpl); for state != nil
{ state = state(tpl) }`. Fuelled; every non-terminal step advances `pos`, so
`rawLen + 1` fuel always reaches the terminal state. -/
def runLex (exts : Externals) : Nat → LexState → Template → Template
  | 0, _, tpl => tpl
  | fuel + 1, st, tpl =>
    match lexStep exts st tpl with
    | (tpl', none) => tpl'
    | (tpl', some st') => runLex exts fuel st' tpl'

/-- Error string of `parse`. -/
def parseErrMsg (name : String) (line col : Nat) (err : String) : String :=
  "[Parsing error: " ++ name ++ "] [Line " ++ toString line ++ ", Column " ++
    toString col ++ "] " ++ err

/-- `parse`: a no-op when already parsed; otherwise run the lexer from the
Content state and either report the pending error or mark the template
parsed. -/
def Template.parse (exts : Externals) (tpl : Template) : Template × Option String :=
  if tpl.parsed then (tpl, none)
  else
    let tpl := tpl.updatePosition.1
    let tpl := runLex exts (tpl.rawLen + 1) .content tpl
    if tpl.err.length > 0 then
      (tpl, some (parseErrMsg tpl.name tpl.line tpl.col tpl.err))
    else
      ({ tpl with parsed := true }, none)

/-- `newTemplate`: refuses empty source before any parsing. -/
def newTemplate (name : String) (tplstr : String) (locator : Option TemplateLocator) :
    Except String Template :=
  if tplstr.length = 0 then .error "Template has no content"
  else
    .ok { name := name, parsed := false, raw := tplstr.data,
          rawLen := tplstr.length, pos := 0, start := 0, length := 0,
          err := "", line := 1, col := 0, autosafe := true, nodes := [],
          node_pos := 0, locator := locator, internal_context := [] }

/-- `FromString`: construct, then parse. -/
def FromString (exts : Externals) (name : String) (tplstr : String)
    (locator : Option TemplateLocator) : Except String Template :=
  match newTemplate name tplstr locator with
  | .error e => .error e
  | .ok tpl =>
    match tpl.parse exts with
    | (_, some e) => .error e
    | (tpl, none) => .ok tpl

/-- `execute` of the `node` interface: a content node emits its literal, a
filter node evaluates its expression, a tag node with a nil handler is the
"unhandled placeholder" error, otherwise the handler is invoked with the
argument text and the context. -/
def node.execute (ctx : Context) : node → Except String String
  | .contentNode _ _ s => .ok s
  | .filterNode _ _ _ e => e.evalString ctx
  | .tagNode _ _ _ tagname _ none =>
    .error ("Unhandled placeholder (for example 'endif' for an if-clause): '"
      ++ tagname ++ "'")
  | .tagNode _ _ _ _ tagargs (some th) => th.Execute tagargs ctx

/-- `Execute`'s per-node error string. -/
def execErrMsg (name : String) (nd : node) (err : String) : String :=
  "[Error: " ++ name ++ "] [Line " ++ toString nd.getLine ++ " Col " ++
    toString nd.getCol ++ " (" ++ nd.getContent ++ ")] " ++ err

/-- `executeUntilAnyTagNode`'s per-node error string. -/
def blockErrMsg (name : String) (nd : node) (err : String) : String :=
  "[Error in block-execution: " ++ name ++ "] [Line " ++ toString nd.getLine ++
    " Col " ++ toString nd.getCol ++ " (" ++ nd.getContent ++ ")] " ++ err

/-- The "no end-node found" error string (Go formats the slice as `[a b]`). -/
def noEndNodeMsg (nodenames : List String) : String :=
  "No end-node (possible nodes: [" ++ String.intercalate " " nodenames ++ "]) found."

/-- The loop of `Execute`: from the current cursor to the end of the node
list, rendering each node and failing on the first error. Fuelled by the
number of remaining nodes. -/
def executeGo (ctx : Context) : Nat → Template → List String → Template × Except String (List String)
  | 0, tpl, acc => (tpl, .ok acc)
  | fuel + 1, tpl, acc =>
    if h : tpl.node_pos < tpl.nodes.length then
      let nd := tpl.nodes.get ⟨tpl.node_pos, h⟩
      match nd.execute ctx with
      | .error err => (tpl, .error (execErrMsg tpl.name nd err))
      | .ok str =>
        executeGo ctx fuel { tpl with node_pos := tpl.node_pos + 1 } (acc ++ [str])
    else (tpl, .ok acc)

/-- `Execute`: render from the cursor's current value to the end of the node
list and join the rendered strings (the cursor is never reset). -/
def Template.Execute (tpl : Template) (ctx : Context) : Template × Except String String :=
  match executeGo ctx (tpl.nodes.length - tpl.node_pos) tpl [] with
  | (tpl, .ok strs) => (tpl, .ok (String.join strs))
  | (tpl, .error e) => (tpl, .error e)

/-- Whether a node is a `tagNode` whose `tagname` is one of `nodenames`. -/
def isStopNode (nodenames : List String) : node → Bool
  | .tagNode _ _ _ tagname _ _ => nodenames.contains tagname
  | _ => false

/-- The loop of `executeUntilAnyTagNode`. -/
def execUntilGo (ctx : Context) (nodenames : List String) :
    Nat → Template → List String → Template × Except String (node × List String)
  | 0, tpl, _ => (tpl, .error (noEndNodeMsg nodenames))
  | fuel + 1, tpl, acc =>
    if h : tpl.node_pos < tpl.nodes.length then
      let nd := tpl.nodes.get ⟨tpl.node_pos, h⟩
      if isStopNode nodenames nd then (tpl, .ok (nd, acc))
      else
        match nd.execute ctx with
        | .error err => (tpl, .error (blockErrMsg tpl.name nd err))
        | .ok str =>
          execUntilGo ctx nodenames fuel { tpl with node_pos := tpl.node_pos + 1 } (acc ++ [str])
    else (tpl, .error (noEndNodeMsg nodenames))

/-- `executeUntilAnyTagNode`: step past the calling tag node, then render
until one of the named stop tags is reached (that node is returned
unrendered); reaching the end of the node list is the "no end-node" error,
with no partial output. -/
def Template.executeUntilAnyTagNode (tpl : Template) (ctx : Context)
    (nodenames : List String) : Template × Except String (node × List String) :=
  let tpl := { tpl with node_pos := tpl.node_pos + 1 }
  execUntilGo ctx nodenames (tpl.nodes.length - tpl.node_pos) tpl []

/-- The notifications a node produces when skipped over: a non-matching tag
node whose handler is present and exposes the `Ignore` hook gets the hook
invoked with the tag's argument text (the log entry). -/
def skipNotifications : node → List String
  | .tagNode _ _ _ _ tagargs (some th) => if th.Ignore then [tagargs] else []
  | _ => []

/-- The loop of `ignoreUntilAnyTagNode`; the `List String` component is the
log of `Ignore`-hook invocations. -/
def ignoreGo (nodenames : List String) :
    Nat → Template → List String → Template × List String × Except String node
  | 0, tpl, log => (tpl, log, .error (noEndNodeMsg nodenames))
  | fuel + 1, tpl, log =>
    if h : tpl.node_pos < tpl.nodes.length then
      let nd := tpl.nodes.get ⟨tpl.node_pos, h⟩
      if isStopNode nodenames nd then (tpl, log, .ok nd)
      else
        ignoreGo nodenames fuel { tpl with node_pos := tpl.node_pos + 1 }
          (log ++ skipNotifications nd)
    else (tpl, log, .error (noEndNodeMsg nodenames))

/-- `ignoreUntilAnyTagNode`: step past the calling tag node, then advance
node-by-node without rendering, notifying skipped tags' `Ignore` hooks,
until one of the named stop tags is reached. -/
def Template.ignoreUntilAnyTagNode (tpl : Template) (nodenames : List String) :
    Template × List String × Except String node :=
  let tpl := { tpl with node_pos := tpl.node_pos + 1 }
  ignoreGo nodenames (tpl.nodes.length - tpl.node_pos) tpl []

/-! ## Spec-side descriptions and concrete instances used by the theorems -/

/-- Spec-side description of the run-until primitive, by structural recursion
on the node list after the calling tag: the pair is (number of nodes passed
over, the Go return value). Rendering stops at the first stop-name tag node,
which is returned unrendered; a body error aborts; an exhausted list is the
"no end-node" error carrying no partial output. -/
def specRunUntil (tplName : String) (ctx : Context) (stopNames : List String) :
    List node → Nat × Except String (node × List String)
  | [] => (0, .error (noEndNodeMsg stopNames))
  | nd :: rest =>
    if isStopNode stopNames nd then (0, .ok (nd, []))
    else
      match nd.execute ctx with
      | .error e => (0, .error (blockErrMsg tplName nd e))
      | .ok s =>
        let r := specRunUntil tplName ctx stopNames rest
        (r.1 + 1,
          match r.2 with
          | .error e => .error e
          | .ok (tn, strs) => .ok (tn, s :: strs))

/-- Prefix the accumulated output onto a run-until result. -/
def prependOut (acc : List String) :
    Except String (node × List String) → Except String (node × List String)
  | .error e => .error e
  | .ok (tn, strs) => .ok (tn, acc ++ strs)

/-- Spec-side description of the skip-until primitive, by structural recursion
on the node list after the calling tag: (number of nodes passed over, the log
of Ignore-hook notifications, the Go return value). No node is rendered. -/
def specSkipUntil (stopNames : List String) :
    List node → Nat × List String × Except String node
  | [] => (0, [], .error (noEndNodeMsg stopNames))
  | nd :: rest =>
    if isStopNode stopNames nd then (0, [], .ok nd)
    else
      let r := specSkipUntil stopNames rest
      (r.1 + 1, skipNotifications nd ++ r.2.1, r.2.2)

/-- An expression whose evaluation always fails (used to show that skipping
never evaluates expressions). -/
def failingExpr : Expr :=
  { evalString := fun _ => .error "expression evaluated", filters := [] }

/-- A handler whose `Execute` always fails but whose `Ignore` hook is kept. -/
def scrubHandler (th : TagHandler) : TagHandler :=
  { Execute := fun _ _ => .error "handler executed", Ignore := th.Ignore }

/-- Replace every evaluatable part of a node by an always-failing one, keeping
positions, raw text, tag names, argument text and Ignore hooks. -/
def scrubNode : node → node
  | .contentNode l c s => .contentNode l c s
  | .filterNode l c s _ => .filterNode l c s failingExpr
  | .tagNode l c s n a th => .tagNode l c s n a (th.map scrubHandler)

/-- A template with every expression and handler made failing. -/
def Template.scrub (tpl : Template) : Template :=
  { tpl with nodes := tpl.nodes.map scrubNode }

/-- One step of the Position Tracker over a byte. -/
def advancePos (lc : Nat × Nat) (c : Char) : Nat × Nat :=
  if c = '\n' then (lc.1 + 1, 0) else (lc.1, lc.2 + 1)

/-- The (line, column) the Position Tracker assigns to the byte at offset
`off` of the source (line 1, column 0 before the first byte; every non-newline
byte advances the column first). -/
def sourcePosition (raw : List Char) (off : Nat) : Nat × Nat :=
  (raw.take (off + 1)).foldl advancePos (1, 0)

/-- External collaborators whose expression compiler always fails (never
consulted by the facts proved with it). -/
def exts0 : Externals :=
  { newExpr := fun _ => .error "no expression compiler", Tags := [] }

/-- A handler for the `if` tag (behaviour irrelevant to the facts proved). -/
def ifHandler : TagHandler :=
  { Execute := fun _ _ => .ok "", Ignore := false }

/-- External collaborators with exactly the tag `if` registered. -/
def exts1 : Externals :=
  { newExpr := fun _ => .error "no expression compiler",
    Tags := [("if", some ifHandler)] }

/-- The template `newTemplate` builds for name `t` and source `ab`. -/
def tplAB : Template :=
  { name := "t", parsed := false, raw := "ab".data, rawLen := 2, pos := 0,
    start := 0, length := 0, err := "", line := 1, col := 0, autosafe := true,
    nodes := [], node_pos := 0, locator := none, internal_context := [] }

/-- Spec-side description of the render-everything loop: (number of nodes
rendered, error or list of rendered strings). -/
def specRenderAll (tplName : String) (ctx : Context) :
    List node → Nat × Except String (List String)
  | [] => (0, .ok [])
  | nd :: rest =>
    match nd.execute ctx with
    | .error e => (0, .error (execErrMsg tplName nd e))
    | .ok s =>
      let r := specRenderAll tplName ctx rest
      (r.1 + 1,
        match r.2 with
        | .error e => .error e
        | .ok strs => .ok (s :: strs))

/-- A parsed one-node template used to witness C9. -/
def tplHi : Template :=
  { name := "t", parsed := true, raw := "hi".data, rawLen := 2, pos := 2,
    start := 2, length := 0, err := "", line := 1, col := 2, autosafe := true,
    nodes := [node.contentNode 1 2 "hi"], node_pos := 0, locator := none,
    internal_context := [] }

/-- Externals whose expression compiler accepts every input (a legitimate
instance of the external-evaluator interface). -/
def extsOk : Externals :=
  { newExpr := fun _ => .ok { evalString := fun _ => .ok "", filters := [] },
    Tags := [] }

/-- The template produced by parsing the whitespace-only filter region
`\x7b\x7b \x7d\x7d` when the external compiler returns `e` for the trimmed
(empty) expression text. -/
def whitespaceFilterTpl (e : Expr) : Template :=
  { name := "t", parsed := true, raw := "\x7b\x7b \x7d\x7d".data, rawLen := 5,
    pos := 5, start := 5, length := 0, err := "", line := 1, col := 5,
    autosafe := true, nodes := [node.filterNode 1 4 "" (e.addFilter "safe")],
    node_pos := 0, locator := none, internal_context := [] }

/-- A character that is not the space character (tag-name splitting is on
the space byte only). -/
def notSpace (c : Char) : Bool := c ≠ ' '

/-- A parser state whose captured region is `if<TAB>a` (a tab between the
tag word and its argument, no space anywhere). -/
def tplTab : Template :=
  { name := "t", parsed := false, raw := "if\ta".data, rawLen := 4, pos := 4,
    start := 0, length := 4, err := "", line := 1, col := 4, autosafe := true,
    nodes := [], node_pos := 0, locator := none, internal_context := [] }

/-- The lexer-buffer fields that single-byte cursor advancing never touches. -/
def lexFrame (tpl : Template) : List Char × Nat × Nat × Nat × String × List node :=
  (tpl.raw, tpl.rawLen, tpl.start, tpl.length, tpl.err, tpl.nodes)

/-- Content state at an opening brace followed by `#`, used to witness C7. -/
def tplC : Template :=
  { name := "t", parsed := false, raw := "\x7b#".data, rawLen := 2, pos := 0,
    start := 0, length := 0, err := "", line := 1, col := 1, autosafe := true,
    nodes := [], node_pos := 0, locator := none, internal_context := [] }

/-- The tag construct used for position testing. -/
def tagTail : List Char := "\x7b% foo %\x7d".data

/-- `k` literal bytes `a` followed by the tag construct. -/
def srcR (k : Nat) : List Char := List.replicate k 'a' ++ tagTail

/-- Parser state over `srcR k` (name `t`, line 1, no error, cursor 0). -/
def c3T (k pos start length col : Nat) (nodes : List node) : Template :=
  { name := "t", parsed := false, raw := srcR k, rawLen := k + 9, pos := pos,
    start := start, length := length, err := "", line := 1, col := col,
    autosafe := true, nodes := nodes, node_pos := 0, locator := none,
    internal_context := [] }

/-- The literal flushed before the tag construct. -/
def cnK (k : Nat) : node :=
  node.contentNode 1 (k + 3) (String.mk (List.replicate k 'a'))

/-! ## Theorems -/

theorem tplAB_from_source : newTemplate "t" "ab" none = .ok tplAB := rfl

/-- C10: for every template name and locator, constructing a `Template` from
the empty source string fails with a "Template has no content" error before
any parsing, and no `Template` value is returned (both from `newTemplate`
directly and through `FromString`, which parses only after construction
succeeded). -/
theorem newTemplate_empty_source_fails (exts : Externals) (name : String)
    (locator : Option TemplateLocator) :
    newTemplate name "" locator = .error "Template has no content" ∧
    FromString exts name "" locator = .error "Template has no content" :=
  ⟨rfl, rfl⟩

/-- C6: executing a `tagNode` whose resolved handler is absent (nil) always
returns the "unhandled placeholder" error and produces no output (the error
result carries only the message); a node with a handler delegates to the
handler's `Execute` with the argument text and the context. -/
theorem tagNode_execute_placeholder (ctx : Context) (line col : Nat)
    (content tagname tagargs : String) :
    (node.tagNode line col content tagname tagargs none).execute ctx =
      .error ("Unhandled placeholder (for example 'endif' for an if-clause): '"
        ++ tagname ++ "'") ∧
    ∀ th : TagHandler,
      (node.tagNode line col content tagname tagargs (some th)).execute ctx =
        th.Execute tagargs ctx :=
  ⟨rfl, fun _ => rfl⟩

/-- C8: parsing is idempotent — once `parse` has succeeded on a template, a
second `parse` returns no error and leaves the template (node list included)
completely unchanged. -/
theorem parse_idempotent (exts : Externals) (tpl : Template)
    (h : (Template.parse exts tpl).2 = none) :
    Template.parse exts (Template.parse exts tpl).1 =
      ((Template.parse exts tpl).1, none) := by
  by_cases hp : tpl.parsed
  · simp [Template.parse, hp]
  · have h' := h
    unfold Template.parse at h'
    simp only [hp, Bool.false_eq_true, if_false] at h'
    by_cases herr :
        (runLex exts (tpl.updatePosition.1.rawLen + 1) .content
          tpl.updatePosition.1).err.length > 0
    · rw [if_pos herr] at h'
      simp at h'
    · have hres : Template.parse exts tpl =
          ({ runLex exts (tpl.updatePosition.1.rawLen + 1) .content
              tpl.updatePosition.1 with parsed := true }, none) := by
        unfold Template.parse
        simp only [hp, Bool.false_eq_true, if_false]
        rw [if_neg herr]
      rw [hres]
      unfold Template.parse
      simp

/-- C8 witness: a concrete successful parse, then a no-op second parse. -/
theorem parse_idempotent_witness :
    (Template.parse exts0 tplAB).2 = none ∧
    Template.parse exts0 (Template.parse exts0 tplAB).1 =
      ((Template.parse exts0 tplAB).1, none) :=
  ⟨rfl, parse_idempotent exts0 tplAB rfl⟩

lemma executeGo_eq_spec (ctx : Context) :
    ∀ (fuel : Nat) (tpl : Template) (acc : List String),
      fuel = tpl.nodes.length - tpl.node_pos →
      executeGo ctx fuel tpl acc =
        ({ tpl with node_pos := tpl.node_pos +
            (specRenderAll tpl.name ctx (tpl.nodes.drop tpl.node_pos)).1 },
         match (specRenderAll tpl.name ctx (tpl.nodes.drop tpl.node_pos)).2 with
         | .error e => .error e
         | .ok strs => .ok (acc ++ strs)) := by
  intro fuel
  induction fuel with
  | zero =>
    intro tpl acc hf
    have hge : tpl.nodes.length ≤ tpl.node_pos := by omega
    rw [List.drop_eq_nil_of_le hge]
    simp [executeGo, specRenderAll]
  | succ n ih =>
    intro tpl acc hf
    have hlt : tpl.node_pos < tpl.nodes.length := by omega
    have hdrop : tpl.nodes.drop tpl.node_pos =
        tpl.nodes.get ⟨tpl.node_pos, hlt⟩ :: tpl.nodes.drop (tpl.node_pos + 1) :=
      List.drop_eq_getElem_cons hlt
    rw [hdrop]
    cases hx : (tpl.nodes.get ⟨tpl.node_pos, hlt⟩).execute ctx with
    | error e =>
      have hstep : executeGo ctx (n + 1) tpl acc =
          (tpl, Except.error (execErrMsg tpl.name (tpl.nodes.get ⟨tpl.node_pos, hlt⟩) e)) := by
        rw [executeGo, dif_pos hlt]
        dsimp only
        rw [hx]
      rw [hstep]
      simp only [specRenderAll, hx]
      rfl
    | ok s =>
      have hstep : executeGo ctx (n + 1) tpl acc =
          executeGo ctx n { tpl with node_pos := tpl.node_pos + 1 } (acc ++ [s]) := by
        rw [executeGo, dif_pos hlt]
        dsimp only
        rw [hx]
      rw [hstep, ih { tpl with node_pos := tpl.node_pos + 1 } (acc ++ [s]) (by simp; omega)]
      simp only [specRenderAll, hx]
      refine Prod.ext ?_ ?_
      · simp only []
        congr 1
        omega
      · simp only []
        cases hr : (specRenderAll tpl.name ctx (tpl.nodes.drop (tpl.node_pos + 1))).2 with
        | error e => simp [hr]
        | ok strs => simp [hr]

lemma specRenderAll_ok_length (tplName : String) (ctx : Context) :
    ∀ (l : List node) (strs : List String),
      (specRenderAll tplName ctx l).2 = .ok strs →
      (specRenderAll tplName ctx l).1 = l.length := by
  intro l
  induction l with
  | nil => intro strs _; rfl
  | cons nd rest ih =>
    intro strs h
    rw [specRenderAll] at h ⊢
    cases hx : nd.execute ctx with
    | error e => rw [hx] at h; simp at h
    | ok s =>
      rw [hx] at h
      replace h : (match (specRenderAll tplName ctx rest).2 with
          | Except.error e => (Except.error e : Except String (List String))
          | Except.ok strs2 => Except.ok (s :: strs2)) = Except.ok strs := h
      show (specRenderAll tplName ctx rest).1 + 1 = (nd :: rest).length
      cases hr : (specRenderAll tplName ctx rest).2 with
      | error e => rw [hr] at h; simp at h
      | ok strs2 => simp [ih strs2 hr]

lemma Execute_eq_spec (tpl : Template) (ctx : Context) :
    tpl.Execute ctx =
      ({ tpl with node_pos := tpl.node_pos +
          (specRenderAll tpl.name ctx (tpl.nodes.drop tpl.node_pos)).1 },
       match (specRenderAll tpl.name ctx (tpl.nodes.drop tpl.node_pos)).2 with
       | .error e => .error e
       | .ok strs => .ok (String.join strs)) := by
  unfold Template.Execute
  rw [executeGo_eq_spec ctx _ tpl [] rfl]
  cases (specRenderAll tpl.name ctx (tpl.nodes.drop tpl.node_pos)).2 with
  | error e => rfl
  | ok strs => rfl

lemma Execute_at_end (tpl : Template) (ctx : Context)
    (h : tpl.nodes.length ≤ tpl.node_pos) :
    tpl.Execute ctx = (tpl, .ok "") := by
  unfold Template.Execute
  have h0 : tpl.nodes.length - tpl.node_pos = 0 := by omega
  rw [h0]
  rfl

/-- C9: `Execute` never resets the execution cursor — it renders from the
cursor's current value to the end of the node list and, on success, leaves
the cursor equal to the node-list length, so an immediate second `Execute`
returns the empty string (and the unchanged template) instead of
re-rendering. -/
theorem execute_never_rewinds (tpl : Template) (ctx : Context) (s : String)
    (hle : tpl.node_pos ≤ tpl.nodes.length)
    (h : (tpl.Execute ctx).2 = .ok s) :
    (tpl.Execute ctx).1.node_pos = tpl.nodes.length ∧
    (tpl.Execute ctx).1.Execute ctx = ((tpl.Execute ctx).1, .ok "") := by
  rw [Execute_eq_spec] at h ⊢
  cases hr2 : (specRenderAll tpl.name ctx (tpl.nodes.drop tpl.node_pos)).2 with
  | error e =>
    rw [hr2] at h
    simp at h
  | ok strs =>
    have hlen := specRenderAll_ok_length tpl.name ctx _ strs hr2
    rw [List.length_drop] at hlen
    constructor
    · simp only []
      omega
    · refine Eq.trans (Execute_at_end _ ctx ?_) ?_
      · simp only []
        omega
      · rfl

/-- C9 witness: a concrete successful render, after which the cursor sits at
the end and a second render yields the empty string. -/
theorem execute_never_rewinds_witness :
    tplHi.node_pos ≤ tplHi.nodes.length ∧ (tplHi.Execute []).2 = .ok "hi" ∧
    ((tplHi.Execute []).1.node_pos = tplHi.nodes.length ∧
     (tplHi.Execute []).1.Execute [] = ((tplHi.Execute []).1, .ok "")) :=
  ⟨by decide, rfl, execute_never_rewinds tplHi [] "hi" (by decide) rfl⟩

lemma execUntilGo_eq_spec (ctx : Context) (names : List String) :
    ∀ (fuel : Nat) (tpl : Template) (acc : List String),
      fuel = tpl.nodes.length - tpl.node_pos →
      execUntilGo ctx names fuel tpl acc =
        ({ tpl with node_pos := tpl.node_pos +
            (specRunUntil tpl.name ctx names (tpl.nodes.drop tpl.node_pos)).1 },
         prependOut acc (specRunUntil tpl.name ctx names (tpl.nodes.drop tpl.node_pos)).2) := by
  intro fuel
  induction fuel with
  | zero =>
    intro tpl acc hf
    have hge : tpl.nodes.length ≤ tpl.node_pos := by omega
    rw [List.drop_eq_nil_of_le hge]
    simp [execUntilGo, specRunUntil, prependOut]
  | succ n ih =>
    intro tpl acc hf
    have hlt : tpl.node_pos < tpl.nodes.length := by omega
    have hdrop : tpl.nodes.drop tpl.node_pos =
        tpl.nodes.get ⟨tpl.node_pos, hlt⟩ :: tpl.nodes.drop (tpl.node_pos + 1) :=
      List.drop_eq_getElem_cons hlt
    rw [hdrop]
    cases hstop : isStopNode names (tpl.nodes.get ⟨tpl.node_pos, hlt⟩) with
    | true =>
      have hstep : execUntilGo ctx names (n + 1) tpl acc =
          (tpl, .ok (tpl.nodes.get ⟨tpl.node_pos, hlt⟩, acc)) := by
        rw [execUntilGo, dif_pos hlt]
        dsimp only
        rw [hstop]
        rfl
      rw [hstep]
      have hspecc : specRunUntil tpl.name ctx names
          (tpl.nodes.get ⟨tpl.node_pos, hlt⟩ :: tpl.nodes.drop (tpl.node_pos + 1)) =
          (0, .ok (tpl.nodes.get ⟨tpl.node_pos, hlt⟩, [])) := by
        rw [specRunUntil, hstop]
        rfl
      rw [hspecc]
      simp [prependOut]
    | false =>
      cases hx : (tpl.nodes.get ⟨tpl.node_pos, hlt⟩).execute ctx with
      | error e =>
        have hstep : execUntilGo ctx names (n + 1) tpl acc =
            (tpl, .error (blockErrMsg tpl.name (tpl.nodes.get ⟨tpl.node_pos, hlt⟩) e)) := by
          rw [execUntilGo, dif_pos hlt]
          dsimp only
          rw [hstop, hx]
          rfl
        rw [hstep]
        simp only [specRunUntil, hstop, hx]
        rfl
      | ok s =>
        have hstep : execUntilGo ctx names (n + 1) tpl acc =
            execUntilGo ctx names n { tpl with node_pos := tpl.node_pos + 1 } (acc ++ [s]) := by
          rw [execUntilGo, dif_pos hlt]
          dsimp only
          rw [hstop, hx]
          rfl
        rw [hstep, ih { tpl with node_pos := tpl.node_pos + 1 } (acc ++ [s]) (by simp; omega)]
        have hspecc : specRunUntil tpl.name ctx names
            (tpl.nodes.get ⟨tpl.node_pos, hlt⟩ :: tpl.nodes.drop (tpl.node_pos + 1)) =
            ((specRunUntil tpl.name ctx names (tpl.nodes.drop (tpl.node_pos + 1))).1 + 1,
             match (specRunUntil tpl.name ctx names (tpl.nodes.drop (tpl.node_pos + 1))).2 with
             | .error e => .error e
             | .ok (tn, strs) => .ok (tn, s :: strs)) := by
          rw [specRunUntil, hstop, hx]
          rfl
        rw [hspecc]
        refine Prod.ext ?_ ?_
        · simp only []
          congr 1
          omega
        · simp only []
          cases hr : (specRunUntil tpl.name ctx names (tpl.nodes.drop (tpl.node_pos + 1))).2 with
          | error e => simp [hr, prependOut]
          | ok p => simp [hr, prependOut]

/-- C1: `executeUntilAnyTagNode` first advances the cursor past the calling
tag node, then behaves exactly as the spec-side recursion `specRunUntil` on
the remaining node list: it renders nodes in order, stops at the first tag
node whose name is in `nodenames` without rendering it (returning the stop
node and the accumulated output, cursor left on the stop node), and when the
node list is exhausted without a stop-name match it fails with the "no
end-node found" error carrying no partial output. -/
theorem executeUntilAnyTagNode_spec (tpl : Template) (ctx : Context)
    (nodenames : List String) :
    tpl.executeUntilAnyTagNode ctx nodenames =
      (let r := specRunUntil tpl.name ctx nodenames (tpl.nodes.drop (tpl.node_pos + 1))
       ({ tpl with node_pos := tpl.node_pos + 1 + r.1 }, r.2)) := by
  unfold Template.executeUntilAnyTagNode
  rw [execUntilGo_eq_spec ctx nodenames _ _ [] rfl]
  dsimp only
  cases hr : (specRunUntil tpl.name ctx nodenames (tpl.nodes.drop (tpl.node_pos + 1))).2 with
  | error e => simp [prependOut, hr]
  | ok p => simp [prependOut, hr]

lemma ignoreGo_eq_spec (names : List String) :
    ∀ (fuel : Nat) (tpl : Template) (log : List String),
      fuel = tpl.nodes.length - tpl.node_pos →
      ignoreGo names fuel tpl log =
        ({ tpl with node_pos := tpl.node_pos +
            (specSkipUntil names (tpl.nodes.drop tpl.node_pos)).1 },
         log ++ (specSkipUntil names (tpl.nodes.drop tpl.node_pos)).2.1,
         (specSkipUntil names (tpl.nodes.drop tpl.node_pos)).2.2) := by
  intro fuel
  induction fuel with
  | zero =>
    intro tpl log hf
    have hge : tpl.nodes.length ≤ tpl.node_pos := by omega
    rw [List.drop_eq_nil_of_le hge]
    simp [ignoreGo, specSkipUntil]
  | succ n ih =>
    intro tpl log hf
    have hlt : tpl.node_pos < tpl.nodes.length := by omega
    have hdrop : tpl.nodes.drop tpl.node_pos =
        tpl.nodes.get ⟨tpl.node_pos, hlt⟩ :: tpl.nodes.drop (tpl.node_pos + 1) :=
      List.drop_eq_getElem_cons hlt
    rw [hdrop]
    cases hstop : isStopNode names (tpl.nodes.get ⟨tpl.node_pos, hlt⟩) with
    | true =>
      have hstep : ignoreGo names (n + 1) tpl log =
          (tpl, log, .ok (tpl.nodes.get ⟨tpl.node_pos, hlt⟩)) := by
        rw [ignoreGo, dif_pos hlt]
        dsimp only
        rw [hstop]
        rfl
      have hspecc : specSkipUntil names
          (tpl.nodes.get ⟨tpl.node_pos, hlt⟩ :: tpl.nodes.drop (tpl.node_pos + 1)) =
          (0, [], .ok (tpl.nodes.get ⟨tpl.node_pos, hlt⟩)) := by
        rw [specSkipUntil, hstop]
        rfl
      rw [hstep, hspecc]
      simp
    | false =>
      have hstep : ignoreGo names (n + 1) tpl log =
          ignoreGo names n { tpl with node_pos := tpl.node_pos + 1 }
            (log ++ skipNotifications (tpl.nodes.get ⟨tpl.node_pos, hlt⟩)) := by
        rw [ignoreGo, dif_pos hlt]
        dsimp only
        rw [hstop]
        rfl
      have hspecc : specSkipUntil names
          (tpl.nodes.get ⟨tpl.node_pos, hlt⟩ :: tpl.nodes.drop (tpl.node_pos + 1)) =
          ((specSkipUntil names (tpl.nodes.drop (tpl.node_pos + 1))).1 + 1,
           skipNotifications (tpl.nodes.get ⟨tpl.node_pos, hlt⟩) ++
             (specSkipUntil names (tpl.nodes.drop (tpl.node_pos + 1))).2.1,
           (specSkipUntil names (tpl.nodes.drop (tpl.node_pos + 1))).2.2) := by
        rw [specSkipUntil, hstop]
        rfl
      rw [hstep, ih { tpl with node_pos := tpl.node_pos + 1 }
        (log ++ skipNotifications (tpl.nodes.get ⟨tpl.node_pos, hlt⟩)) (by simp; omega)]
      rw [hspecc]
      refine Prod.ext ?_ (Prod.ext ?_ ?_)
      · simp only []
        congr 1
        omega
      · simp only []
        rw [List.append_assoc]
      · rfl

lemma specSkipUntil_scrub (names : List String) :
    ∀ l : List node,
      specSkipUntil names (l.map scrubNode) =
        ((specSkipUntil names l).1, (specSkipUntil names l).2.1,
         Except.map scrubNode (specSkipUntil names l).2.2) := by
  intro l
  induction l with
  | nil => rfl
  | cons nd rest ih =>
    have hstop : isStopNode names (scrubNode nd) = isStopNode names nd := by
      cases nd <;> rfl
    have hnot : skipNotifications (scrubNode nd) = skipNotifications nd := by
      cases nd with
      | tagNode l c s n a th => cases th <;> rfl
      | contentNode l c s => rfl
      | filterNode l c s e => rfl
    rw [List.map_cons, specSkipUntil, specSkipUntil, hstop, hnot]
    cases hs : isStopNode names nd with
    | true => simp [scrubNode, Except.map]
    | false =>
      simp only [Bool.false_eq_true, if_false]
      rw [ih]

/-- C2: `ignoreUntilAnyTagNode` advances the cursor node-by-node without
invoking any node's execute operation: its entire behaviour — cursor
movement, the log of `Ignore`-hook notifications (one per skipped tag node
whose handler is present and exposes the hook, invoked with the tag's
argument text), the stop node returned on the first name match, and the "no
end-node found" error when the list is exhausted — equals the spec-side
recursion `specSkipUntil`, which never mentions rendering; moreover the
behaviour is unchanged (up to the same scrubbing of the returned stop node)
when every expression evaluator and handler `Execute` in the template is
replaced by an always-failing one, so skipping succeeds even where
evaluation of the skipped nodes would fail. -/
theorem ignoreUntilAnyTagNode_spec (tpl : Template) (nodenames : List String) :
    (let r := specSkipUntil nodenames (tpl.nodes.drop (tpl.node_pos + 1))
     tpl.ignoreUntilAnyTagNode nodenames =
        ({ tpl with node_pos := tpl.node_pos + 1 + r.1 }, r.2.1, r.2.2) ∧
     tpl.scrub.ignoreUntilAnyTagNode nodenames =
        ({ tpl.scrub with node_pos := tpl.node_pos + 1 + r.1 }, r.2.1,
         Except.map scrubNode r.2.2)) := by
  dsimp only
  constructor
  · unfold Template.ignoreUntilAnyTagNode
    rw [ignoreGo_eq_spec nodenames _ _ [] rfl]
    simp
  · unfold Template.ignoreUntilAnyTagNode
    rw [ignoreGo_eq_spec nodenames _ _ [] rfl]
    simp only [Template.scrub]
    rw [← List.map_drop, specSkipUntil_scrub]
    simp

/-- C4 counterexample: the source has a filter region whose captured text
(one space) is empty after trimming, yet with an expression compiler that
accepts the empty expression the parse succeeds — no "empty filter" error is
raised, because the code checks the untrimmed captured length only. -/
theorem whitespace_filter_region_not_rejected :
    trimSpace " ".data = [] ∧
    (FromString extsOk "t" "\x7b\x7b \x7d\x7d" none).isOk = true :=
  ⟨rfl, rfl⟩

/-- C4 amended: the emptiness check in `addFilterNode` fires on the raw
captured length, before trimming — a zero-length region (`\x7b\x7b\x7d\x7d`)
fails with the "Empty filter" parse error, while a whitespace-only region
(`\x7b\x7b \x7d\x7d`) passes the check and hands the trimmed (empty) text to
the external expression compiler, succeeding whenever the compiler does. -/
theorem addFilterNode_empty_check :
    (∀ (exts : Externals) (tpl : Template), tpl.length = 0 →
      addFilterNode exts tpl = (tpl, some "Empty filter")) ∧
    (∀ exts : Externals,
      FromString exts "t" "\x7b\x7b\x7d\x7d" none =
        .error (parseErrMsg "t" 1 3 "Empty filter")) ∧
    (∀ e : Expr,
      FromString { newExpr := fun _ => .ok e, Tags := [] } "t" "\x7b\x7b \x7d\x7d" none =
        .ok (whitespaceFilterTpl e)) := by
  refine ⟨?_, ?_, ?_⟩
  · intro exts tpl h
    simp [addFilterNode, h]
  · intro exts
    rfl
  · intro e
    rfl

/-- C4 witness: the empty-check at a concrete zero-length capture. -/
theorem addFilterNode_empty_check_witness :
    addFilterNode exts0 tplAB = (tplAB, some "Empty filter") :=
  addFilterNode_empty_check.1 exts0 tplAB rfl

lemma notSpace_space : notSpace ' ' = false := rfl

lemma notSpace_of_ne (c : Char) (h : ¬ c = ' ') : notSpace c = true := by
  simp [notSpace, h]

lemma indexOfSpace_none :
    ∀ s : List Char, indexOfSpace s = none →
      s.takeWhile notSpace = s ∧ s.dropWhile notSpace = [] := by
  intro s
  induction s with
  | nil => intro _; exact ⟨rfl, rfl⟩
  | cons c t ih =>
    intro h
    rw [indexOfSpace] at h
    by_cases hc : c = ' '
    · rw [if_pos hc] at h
      simp at h
    · rw [if_neg hc] at h
      simp only [Option.map_eq_none'] at h
      obtain ⟨h1, h2⟩ := ih h
      constructor
      · simp [List.takeWhile_cons, notSpace_of_ne c hc, h1]
      · simp [List.dropWhile_cons, notSpace_of_ne c hc, h2]

lemma indexOfSpace_some :
    ∀ (s : List Char) (i : Nat), indexOfSpace s = some i →
      s.take i = s.takeWhile notSpace ∧
      s.drop (i + 1) = (s.dropWhile notSpace).drop 1 := by
  intro s
  induction s with
  | nil =>
    intro i h
    rw [indexOfSpace] at h
    exact Option.noConfusion h
  | cons c t ih =>
    intro i h
    rw [indexOfSpace] at h
    by_cases hc : c = ' '
    · rw [if_pos hc] at h
      simp only [Option.some.injEq] at h
      subst h
      subst hc
      constructor
      · simp [List.takeWhile_cons, notSpace_space]
      · simp [List.dropWhile_cons, notSpace_space]
    · rw [if_neg hc] at h
      cases hj : indexOfSpace t with
      | none => rw [hj] at h; simp at h
      | some j =>
        rw [hj] at h
        simp only [Option.map_some', Option.some.injEq] at h
        subst h
        obtain ⟨h1, h2⟩ := ih j hj
        constructor
        · simp [List.takeWhile_cons, notSpace_of_ne c hc, h1]
        · simp [List.dropWhile_cons, notSpace_of_ne c hc, h2]

/-- C5 counterexample: the registry resolves the name `if`, and splitting the
captured text `if<TAB>a` on a whitespace run would produce exactly that name;
but `addTagNode` splits on the space character only, looks up the whole text
`if<TAB>a`, and fails with "tag does not exist". -/
theorem tag_name_not_split_at_tab :
    (lookupTag exts1.Tags "if").isSome = true ∧
    (addTagNode exts1 tplTab).2 = some "Tag 'if\ta' does not exist" :=
  ⟨rfl, rfl⟩

/-- C5 amended: `addTagNode` trims the captured text and splits it at the
first space character (not at the first whitespace run): the tag name is the
maximal space-free first segment of the trimmed text; the remainder after
that space (empty when there is no space), trimmed again, is stored verbatim
as the argument text; an unregistered name is the "tag does not exist"
error, and otherwise the resolved handler is stored in the appended node. -/
theorem addTagNode_first_space_split (exts : Externals) (tpl : Template)
    (h : ¬ tpl.length = 0) :
    addTagNode exts tpl =
      (let content := trimSpace tpl.capture
       let tagname := String.mk (content.takeWhile notSpace)
       let rest := (content.dropWhile notSpace).drop 1
       match lookupTag exts.Tags tagname with
       | none => (tpl, some ("Tag '" ++ tagname ++ "' does not exist"))
       | some tag =>
         let tn := node.tagNode tpl.line tpl.col (String.mk content) tagname
           (String.mk (trimSpace rest)) tag
         ({ tpl with start := tpl.pos, length := 0, nodes := tpl.nodes ++ [tn] }, none)) := by
  unfold addTagNode
  rw [if_neg h]
  dsimp only
  cases hfind : indexOfSpace (trimSpace tpl.capture) with
  | none =>
    obtain ⟨h1, h2⟩ := indexOfSpace_none _ hfind
    rw [splitN2Space, hfind]
    simp only [List.length_cons, List.length_nil, List.headD_cons, h1, h2]
    norm_num
  | some i =>
    obtain ⟨h1, h2⟩ := indexOfSpace_some _ i hfind
    rw [splitN2Space, hfind]
    simp only [List.length_cons, List.length_nil, List.headD_cons, h1, h2]
    norm_num

/-- C5 witness: the amended description applied at the tabbed capture. -/
theorem addTagNode_first_space_split_witness :
    addTagNode exts1 tplTab = (tplTab, some "Tag 'if\ta' does not exist") :=
  (addTagNode_first_space_split exts1 tplTab (by decide)).trans rfl

lemma updatePosition_frame (tpl : Template) :
    lexFrame tpl.updatePosition.1 = lexFrame tpl ∧
    tpl.updatePosition.1.pos = tpl.pos := by
  unfold Template.updatePosition
  split
  · exact ⟨rfl, rfl⟩
  · split
    · exact ⟨rfl, rfl⟩
    · exact ⟨rfl, rfl⟩

lemma fastForward_frame :
    ∀ (n : Nat) (tpl : Template), lexFrame (tpl.fastForward n).1 = lexFrame tpl := by
  intro n
  induction n with
  | zero => intro tpl; rfl
  | succ m ih =>
    intro tpl
    rw [Template.fastForward]
    have hf := (updatePosition_frame { tpl with pos := tpl.pos + 1 }).1
    cases hup : ({ tpl with pos := tpl.pos + 1 } : Template).updatePosition with
    | mk t b =>
      rw [hup] at hf
      cases b with
      | false => exact hf
      | true => exact (ih t).trans hf

lemma fastForward_fields (n : Nat) (tpl : Template) :
    (tpl.fastForward n).1.raw = tpl.raw ∧ (tpl.fastForward n).1.rawLen = tpl.rawLen ∧
    (tpl.fastForward n).1.start = tpl.start ∧ (tpl.fastForward n).1.length = tpl.length ∧
    (tpl.fastForward n).1.err = tpl.err ∧ (tpl.fastForward n).1.nodes = tpl.nodes := by
  have h := fastForward_frame n tpl
  simp only [lexFrame, Prod.mk.injEq] at h
  exact h

lemma fastForward_capture (n : Nat) (tpl : Template) :
    (tpl.fastForward n).1.capture = tpl.capture := by
  obtain ⟨h1, _, h3, h4, _, _⟩ := fastForward_fields n tpl
  unfold Template.capture
  rw [h1, h3, h4]

lemma addContentNode_err (tpl : Template) : (addContentNode tpl).err = tpl.err := by
  unfold addContentNode
  split <;> rfl

lemma addContentNode_nodes (tpl : Template) :
    (addContentNode tpl).nodes = tpl.nodes ++ (if tpl.length = 0 then [] else
      [node.contentNode tpl.line tpl.col (String.mk tpl.capture)]) := by
  by_cases h : tpl.length = 0 <;> simp [addContentNode, h]

/-- C7: in the Content scanning state — (a) end-of-input is not an error: the
pending literal is flushed and the machine terminates with the error state
untouched; (b) a brace followed by `#`, `%` or `\x7b` flushes the literal and
transitions to the Comment, Tag or Filter state respectively (error state
untouched), while any other lookahead byte after the brace terminates with
the "Unknown open command" parse error. -/
theorem processContent_step (exts : Externals) (tpl : Template) :
    (tpl.getChar 0 = none →
      lexStep exts .content tpl = (addContentNode tpl, none) ∧
      (addContentNode tpl).err = tpl.err ∧
      (addContentNode tpl).nodes = tpl.nodes ++ (if tpl.length = 0 then [] else
        [node.contentNode tpl.line tpl.col (String.mk tpl.capture)])) ∧
    (∀ nc : Char, tpl.getChar 0 = some '\x7b' → tpl.getChar 1 = some nc →
      (nc = '#' → (lexStep exts .content tpl).2 = some LexState.comment) ∧
      (nc = '%' → (lexStep exts .content tpl).2 = some LexState.tag) ∧
      (nc = '\x7b' → (lexStep exts .content tpl).2 = some LexState.filter) ∧
      ((nc = '#' ∨ nc = '%' ∨ nc = '\x7b') →
        (lexStep exts .content tpl).1.err = tpl.err ∧
        (lexStep exts .content tpl).1.nodes = tpl.nodes ++ (if tpl.length = 0 then []
          else [node.contentNode (tpl.fastForward 2).1.line (tpl.fastForward 2).1.col
            (String.mk tpl.capture)])) ∧
      (¬ nc = '#' → ¬ nc = '%' → ¬ nc = '\x7b' →
        lexStep exts .content tpl =
          ({ (tpl.fastForward 2).1 with
              err := "Unknown open command ('" ++ String.mk [nc] ++ "')." }, none))) := by
  constructor
  · intro h
    refine ⟨?_, addContentNode_err tpl, addContentNode_nodes tpl⟩
    rw [lexStep, h]
  · intro nc h0 h1
    have hstep : lexStep exts .content tpl =
        (if nc = '#' then
          ({ addContentNode (tpl.fastForward 2).1 with
              start := (addContentNode (tpl.fastForward 2).1).pos }, some LexState.comment)
         else if nc = '%' then
          ({ addContentNode (tpl.fastForward 2).1 with
              start := (addContentNode (tpl.fastForward 2).1).pos }, some LexState.tag)
         else if nc = '\x7b' then
          ({ addContentNode (tpl.fastForward 2).1 with
              start := (addContentNode (tpl.fastForward 2).1).pos }, some LexState.filter)
         else
          ({ (tpl.fastForward 2).1 with
              err := "Unknown open command ('" ++ String.mk [nc] ++ "')." }, none)) := by
      rw [lexStep, h0, h1]
      rfl
    have hflush :
        ({ addContentNode (tpl.fastForward 2).1 with
            start := (addContentNode (tpl.fastForward 2).1).pos } : Template).err = tpl.err ∧
        ({ addContentNode (tpl.fastForward 2).1 with
            start := (addContentNode (tpl.fastForward 2).1).pos } : Template).nodes =
          tpl.nodes ++ (if tpl.length = 0 then [] else
            [node.contentNode (tpl.fastForward 2).1.line (tpl.fastForward 2).1.col
              (String.mk tpl.capture)]) := by
      obtain ⟨h1f, h2f, h3f, h4f, h5f, h6f⟩ := fastForward_fields 2 tpl
      constructor
      · show (addContentNode (tpl.fastForward 2).1).err = tpl.err
        rw [addContentNode_err, h5f]
      · show (addContentNode (tpl.fastForward 2).1).nodes = _
        rw [addContentNode_nodes, h6f, h4f, fastForward_capture]
    refine ⟨?_, ?_, ?_, ?_, ?_⟩
    · intro hn
      subst hn
      rw [hstep]
      rfl
    · intro hn
      subst hn
      rw [hstep]
      rfl
    · intro hn
      subst hn
      rw [hstep]
      rfl
    · intro hor
      rcases hor with hn | hn | hn <;> (subst hn; rw [hstep]; exact hflush)
    · intro hn1 hn2 hn3
      rw [hstep, if_neg hn1, if_neg hn2, if_neg hn3]

/-- C7 witness: a concrete brace-hash lookahead transitions to Comment. -/
theorem processContent_step_witness :
    tplC.getChar 0 = some '\x7b' ∧ tplC.getChar 1 = some '#' ∧
    (lexStep exts0 .content tplC).2 = some LexState.comment :=
  ⟨rfl, rfl, ((processContent_step exts0 tplC).2 '#' rfl rfl).1 rfl⟩

/-- C3 counterexample: in `aa\x7b% foo %\x7d` the offending construct (the
unknown tag) starts at offset 2, whose tracker position is line 1 column 3;
the reported parse error carries column 10 — the position of the closing
delimiter — not column 3. -/
theorem parse_error_position_counterexample :
    FromString exts1 "t" "aa\x7b% foo %\x7d" none =
      .error (parseErrMsg "t" 1 10 "Tag 'foo' does not exist") ∧
    sourcePosition "aa\x7b% foo %\x7d".data 2 = (1, 3) ∧
    (10 : Nat) ≠ 3 :=
  ⟨rfl, rfl, by decide⟩

lemma getChar_of_lt (tpl : Template) (rel : Nat) (h : tpl.pos + rel < tpl.rawLen) :
    tpl.getChar rel = some (tpl.raw.getD (tpl.pos + rel) ' ') := by
  have hn : ¬ (tpl.pos + rel ≥ tpl.rawLen) := by omega
  simp [Template.getChar, Template.hasReachedEnd, hn]

lemma getChar_of_ge (tpl : Template) (rel : Nat) (h : tpl.rawLen ≤ tpl.pos + rel) :
    tpl.getChar rel = none := by
  have hn : tpl.pos + rel ≥ tpl.rawLen := h
  simp [Template.getChar, Template.hasReachedEnd, hn]

lemma updatePosition_step (tpl : Template) (hend : tpl.pos < tpl.rawLen)
    (hnl : tpl.raw.getD tpl.pos ' ' ≠ '\n') :
    tpl.updatePosition = ({ tpl with col := tpl.col + 1 }, true) := by
  have hn : ¬ tpl.rawLen ≤ tpl.pos := by omega
  have hnl' : ¬ (tpl.raw[tpl.pos]?.getD ' ' = '\n') := by
    simpa [List.getD] using hnl
  simp [Template.updatePosition, Template.hasReachedEnd, hn, hnl']

lemma fastForward_succ (tpl : Template) (n : Nat) (hend : tpl.pos + 1 < tpl.rawLen)
    (hnl : tpl.raw.getD (tpl.pos + 1) ' ' ≠ '\n') :
    tpl.fastForward (n + 1) =
      ({ tpl with pos := tpl.pos + 1, col := tpl.col + 1 } : Template).fastForward n := by
  rw [Template.fastForward]
  have hup : ({ tpl with pos := tpl.pos + 1 } : Template).updatePosition =
      ({ tpl with pos := tpl.pos + 1, col := tpl.col + 1 }, true) := by
    rw [updatePosition_step _ (by simpa using hend) (by simpa using hnl)]
  cases hup2 : ({ tpl with pos := tpl.pos + 1 } : Template).updatePosition with
  | mk t b =>
    rw [hup] at hup2
    injection hup2 with h1 h2
    subst h1
    subst h2
    rfl

lemma fastForward_one (tpl : Template) (hend : tpl.pos + 1 < tpl.rawLen)
    (hnl : tpl.raw.getD (tpl.pos + 1) ' ' ≠ '\n') :
    tpl.fastForward 1 = ({ tpl with pos := tpl.pos + 1, col := tpl.col + 1 }, true) :=
  (fastForward_succ tpl 0 hend hnl).trans rfl

lemma scan_run (exts : Externals) :
    ∀ (a fuel : Nat) (tpl : Template),
      tpl.rawLen = tpl.raw.length →
      (∀ i, i < a → tpl.raw.getD (tpl.pos + i) ' ' = 'a') →
      tpl.pos + a < tpl.raw.length →
      tpl.raw.getD (tpl.pos + a) ' ' ≠ '\n' →
      runLex exts (a + fuel) .content tpl =
        runLex exts fuel .content
          { tpl with pos := tpl.pos + a, col := tpl.col + a, length := tpl.length + a } := by
  intro a
  induction a with
  | zero =>
    intro fuel tpl _ _ _ _
    rw [Nat.zero_add]
    rfl
  | succ a ih =>
    intro fuel tpl hlen hrun hbound hnl
    have hplt : tpl.pos < tpl.rawLen := by omega
    have hp1 : tpl.pos + 1 < tpl.rawLen := by omega
    have hc0 : tpl.getChar 0 = some 'a' := by
      rw [getChar_of_lt tpl 0 (by omega), hrun 0 (by omega)]
    have hnl1 : tpl.raw.getD (tpl.pos + 1) ' ' ≠ '\n' := by
      rcases Nat.eq_zero_or_pos a with ha | ha
      · subst ha
        exact fun hcon => hnl (by simpa using hcon)
      · rw [hrun 1 (by omega)]
        decide
    have hff : ({ tpl with length := tpl.length + 1 } : Template).fastForward 1 =
        ({ tpl with length := tpl.length + 1, pos := tpl.pos + 1, col := tpl.col + 1 },
         true) := by
      have := fastForward_one { tpl with length := tpl.length + 1 }
        (by simpa using hp1) (by simpa using hnl1)
      exact this
    have hstep : lexStep exts .content tpl =
        ({ tpl with length := tpl.length + 1, pos := tpl.pos + 1, col := tpl.col + 1 },
         some LexState.content) := by
      rw [lexStep, hc0]
      show ((({ tpl with length := tpl.length + 1 } : Template).fastForward 1).1,
        some LexState.content) = _
      rw [hff]
    rw [show a + 1 + fuel = (a + fuel) + 1 from by omega, runLex, hstep]
    show runLex exts (a + fuel) LexState.content
        { tpl with length := tpl.length + 1, pos := tpl.pos + 1, col := tpl.col + 1 } = _
    rw [ih fuel { tpl with length := tpl.length + 1, pos := tpl.pos + 1, col := tpl.col + 1 }
      (by simpa using hlen)
      (by
        intro i hi
        show tpl.raw.getD (tpl.pos + 1 + i) ' ' = 'a'
        rw [show tpl.pos + 1 + i = tpl.pos + (i + 1) from by omega]
        exact hrun (i + 1) (by omega))
      (by
        show tpl.pos + 1 + a < tpl.raw.length
        omega)
      (by
        show tpl.raw.getD (tpl.pos + 1 + a) ' ' ≠ '\n'
        rw [show tpl.pos + 1 + a = tpl.pos + (a + 1) from by omega]
        exact hnl)]
    congr 1
    simp only [Template.mk.injEq, and_true, true_and]
    omega

lemma srcR_length (k : Nat) : (srcR k).length = k + 9 := by
  simp [srcR, tagTail]

lemma srcR_getD_add (k i : Nat) : (srcR k).getD (k + i) ' ' = tagTail.getD i ' ' := by
  simp [srcR, List.getD, List.getElem?_append_right, Nat.le_add_right]

lemma lexStep_tag_other (exts : Externals) (tpl : Template) (c : Char)
    (hc : tpl.getChar 0 = some c) (hne : ¬ c = '%')
    (hend : tpl.pos + 1 < tpl.rawLen) (hnl : tpl.raw.getD (tpl.pos + 1) ' ' ≠ '\n') :
    lexStep exts .tag tpl =
      ({ tpl with length := tpl.length + 1, pos := tpl.pos + 1, col := tpl.col + 1 },
       some LexState.tag) := by
  rw [lexStep, hc]
  split
  · next h => exact Option.noConfusion h
  · next nc heq =>
    injection heq with hnc
    subst hnc
    rw [if_neg hne, fastForward_one { tpl with length := tpl.length + 1 }
      (by simpa using hend) (by simpa using hnl)]

lemma srcR_getD_lt (k i : Nat) (h : i < k) : (srcR k).getD i ' ' = 'a' := by
  simp [srcR, List.getD, List.getElem?_append, List.getElem?_replicate, h]

lemma runLex_step (exts : Externals) (fuel : Nat) (st st' : LexState)
    (tpl tpl' : Template) (h : lexStep exts st tpl = (tpl', some st')) :
    runLex exts (fuel + 1) st tpl = runLex exts fuel st' tpl' := by
  rw [runLex, h]

lemma runLex_last (exts : Externals) (fuel : Nat) (st : LexState)
    (tpl tpl' : Template) (h : lexStep exts st tpl = (tpl', none)) :
    runLex exts (fuel + 1) st tpl = tpl' := by
  rw [runLex, h]

lemma srcR_getChar0 (k p start length col : Nat) (nodes : List node) (hlt : p < 9) :
    (c3T k (k + p) start length col nodes).getChar 0 = some (tagTail.getD p ' ') := by
  rw [getChar_of_lt _ 0 (by show k + p + 0 < k + 9; omega)]
  show some ((srcR k).getD (k + p) ' ') = _
  rw [srcR_getD_add]

lemma srcR_getChar1 (k p start length col : Nat) (nodes : List node) (hlt : p + 1 < 9) :
    (c3T k (k + p) start length col nodes).getChar 1 = some (tagTail.getD (p + 1) ' ') := by
  rw [getChar_of_lt _ 1 (by show k + p + 1 < k + 9; omega)]
  show some ((srcR k).getD (k + p + 1) ' ') = _
  rw [show k + p + 1 = k + (p + 1) from by omega, srcR_getD_add]

lemma srcR_nonl (k p : Nat) (hc : tagTail.getD p ' ' ≠ '\n') :
    (srcR k).getD (k + p) ' ' ≠ '\n' := by
  rw [srcR_getD_add]
  exact hc

lemma c3_step1 (k : Nat) (hk : ¬ k = 0) :
    lexStep exts1 .content (c3T k k 0 k (k + 1) []) =
      (c3T k (k + 2) (k + 2) 0 (k + 3) [cnK k], some LexState.tag) := by
  have hc0 : (c3T k k 0 k (k + 1) []).getChar 0 = some '\x7b' := by
    have h := srcR_getChar0 k 0 0 k (k + 1) [] (by omega)
    rw [show k + 0 = k from rfl] at h
    exact h
  have hc1 : (c3T k k 0 k (k + 1) []).getChar 1 = some '%' := by
    have h := srcR_getChar1 k 0 0 k (k + 1) [] (by omega)
    rw [show k + 0 = k from rfl] at h
    exact h
  have hff2 : (c3T k k 0 k (k + 1) []).fastForward 2 =
      (c3T k (k + 2) 0 k (k + 3) [], true) := by
    rw [fastForward_succ _ 1 (by show k + 1 < k + 9; omega)
      (by show (srcR k).getD (k + 1) ' ' ≠ '\n'; exact srcR_nonl k 1 (by decide))]
    have h1 := fastForward_one (c3T k (k + 1) 0 k (k + 2) [])
      (by show k + 1 + 1 < k + 9; omega)
      (by show (srcR k).getD (k + 1 + 1) ' ' ≠ '\n'
          rw [show k + 1 + 1 = k + 2 from rfl]
          exact srcR_nonl k 2 (by decide))
    exact h1
  have hacn : addContentNode (c3T k (k + 2) 0 k (k + 3) []) =
      c3T k (k + 2) (k + 2) 0 (k + 3) [cnK k] := by
    unfold addContentNode
    rw [if_neg (show ¬ (c3T k (k + 2) 0 k (k + 3) [] : Template).length = 0 from hk)]
    have hcap : (c3T k (k + 2) 0 k (k + 3) [] : Template).capture =
        List.replicate k 'a' := by
      show ((srcR k).drop 0).take k = _
      rw [List.drop_zero]
      rw [srcR, List.take_append_eq_append_take]
      simp [List.take_replicate]
    rw [hcap]
    rfl
  rw [lexStep, hc0, hc1]
  show ({ addContentNode (((c3T k k 0 k (k + 1) [] : Template).fastForward 2).1) with
      start := (addContentNode (((c3T k k 0 k (k + 1) [] : Template).fastForward 2).1)).pos },
    some LexState.tag) = _
  rw [hff2]
  show ({ addContentNode (c3T k (k + 2) 0 k (k + 3) []) with
      start := (addContentNode (c3T k (k + 2) 0 k (k + 3) [])).pos }, some LexState.tag) = _
  rw [hacn]
  rfl

lemma c3_step2 (k : Nat) :
    lexStep exts1 .tag (c3T k (k + 2) (k + 2) 0 (k + 3) [cnK k]) =
      (c3T k (k + 3) (k + 2) 1 (k + 4) [cnK k], some LexState.tag) := by
  have h := lexStep_tag_other exts1 (c3T k (k + 2) (k + 2) 0 (k + 3) [cnK k]) ' '
    (srcR_getChar0 k 2 (k + 2) 0 (k + 3) [cnK k] (by omega))
    (by decide)
    (by show k + 2 + 1 < k + 9; omega)
    (by show (srcR k).getD (k + 3) ' ' ≠ '\n'; exact srcR_nonl k 3 (by decide))
  exact h

lemma c3_step3 (k : Nat) :
    lexStep exts1 .tag (c3T k (k + 3) (k + 2) 1 (k + 4) [cnK k]) =
      (c3T k (k + 4) (k + 2) 2 (k + 5) [cnK k], some LexState.tag) := by
  have h := lexStep_tag_other exts1 (c3T k (k + 3) (k + 2) 1 (k + 4) [cnK k]) 'f'
    (srcR_getChar0 k 3 (k + 2) 1 (k + 4) [cnK k] (by omega))
    (by decide)
    (by show k + 3 + 1 < k + 9; omega)
    (by show (srcR k).getD (k + 4) ' ' ≠ '\n'; exact srcR_nonl k 4 (by decide))
  exact h

lemma c3_step4 (k : Nat) :
    lexStep exts1 .tag (c3T k (k + 4) (k + 2) 2 (k + 5) [cnK k]) =
      (c3T k (k + 5) (k + 2) 3 (k + 6) [cnK k], some LexState.tag) := by
  have h := lexStep_tag_other exts1 (c3T k (k + 4) (k + 2) 2 (k + 5) [cnK k]) 'o'
    (srcR_getChar0 k 4 (k + 2) 2 (k + 5) [cnK k] (by omega))
    (by decide)
    (by show k + 4 + 1 < k + 9; omega)
    (by show (srcR k).getD (k + 5) ' ' ≠ '\n'; exact srcR_nonl k 5 (by decide))
  exact h

lemma c3_step5 (k : Nat) :
    lexStep exts1 .tag (c3T k (k + 5) (k + 2) 3 (k + 6) [cnK k]) =
      (c3T k (k + 6) (k + 2) 4 (k + 7) [cnK k], some LexState.tag) := by
  have h := lexStep_tag_other exts1 (c3T k (k + 5) (k + 2) 3 (k + 6) [cnK k]) 'o'
    (srcR_getChar0 k 5 (k + 2) 3 (k + 6) [cnK k] (by omega))
    (by decide)
    (by show k + 5 + 1 < k + 9; omega)
    (by show (srcR k).getD (k + 6) ' ' ≠ '\n'; exact srcR_nonl k 6 (by decide))
  exact h

lemma c3_step6 (k : Nat) :
    lexStep exts1 .tag (c3T k (k + 6) (k + 2) 4 (k + 7) [cnK k]) =
      (c3T k (k + 7) (k + 2) 5 (k + 8) [cnK k], some LexState.tag) := by
  have h := lexStep_tag_other exts1 (c3T k (k + 6) (k + 2) 4 (k + 7) [cnK k]) ' '
    (srcR_getChar0 k 6 (k + 2) 4 (k + 7) [cnK k] (by omega))
    (by decide)
    (by show k + 6 + 1 < k + 9; omega)
    (by show (srcR k).getD (k + 7) ' ' ≠ '\n'; exact srcR_nonl k 7 (by decide))
  exact h

lemma srcR_drop (k i : Nat) : (srcR k).drop (k + i) = tagTail.drop i := by
  have h := @List.drop_append _ (List.replicate k 'a') tagTail i
  simpa [srcR] using h

lemma c3_step7 (k : Nat) :
    lexStep exts1 .tag (c3T k (k + 7) (k + 2) 5 (k + 8) [cnK k]) =
      ({ c3T k (k + 7) (k + 2) 5 (k + 8) [cnK k] with
          err := "Tag 'foo' does not exist" }, none) := by
  have hc0 := srcR_getChar0 k 7 (k + 2) 5 (k + 8) [cnK k] (by omega)
  have hc1 := srcR_getChar1 k 7 (k + 2) 5 (k + 8) [cnK k] (by omega)
  have hcap : (c3T k (k + 7) (k + 2) 5 (k + 8) [cnK k] : Template).capture =
      " foo ".data := by
    show ((srcR k).drop (k + 2)).take 5 = _
    rw [srcR_drop k 2]
    rfl
  have hatn : addTagNode exts1 (c3T k (k + 7) (k + 2) 5 (k + 8) [cnK k]) =
      (c3T k (k + 7) (k + 2) 5 (k + 8) [cnK k], some "Tag 'foo' does not exist") := by
    unfold addTagNode
    rw [if_neg (show ¬ (c3T k (k + 7) (k + 2) 5 (k + 8) [cnK k] : Template).length = 0
      from by simp [c3T]), hcap]
    rfl
  rw [lexStep, hc0, hc1, hatn]
  rfl

lemma c3_tail (k : Nat) (hk : ¬ k = 0) :
    runLex exts1 10 .content (c3T k k 0 k (k + 1) []) =
      { c3T k (k + 7) (k + 2) 5 (k + 8) [cnK k] with
          err := "Tag 'foo' does not exist" } := by
  rw [show (10 : Nat) = 9 + 1 from rfl, runLex_step exts1 9 _ _ _ _ (c3_step1 k hk)]
  rw [show (9 : Nat) = 8 + 1 from rfl, runLex_step exts1 8 _ _ _ _ (c3_step2 k)]
  rw [show (8 : Nat) = 7 + 1 from rfl, runLex_step exts1 7 _ _ _ _ (c3_step3 k)]
  rw [show (7 : Nat) = 6 + 1 from rfl, runLex_step exts1 6 _ _ _ _ (c3_step4 k)]
  rw [show (6 : Nat) = 5 + 1 from rfl, runLex_step exts1 5 _ _ _ _ (c3_step5 k)]
  rw [show (5 : Nat) = 4 + 1 from rfl, runLex_step exts1 4 _ _ _ _ (c3_step6 k)]
  rw [show (4 : Nat) = 3 + 1 from rfl, runLex_last exts1 3 _ _ _ (c3_step7 k)]

lemma foldl_advance_replicate :
    ∀ (k l c : Nat), (List.replicate k 'a').foldl advancePos (l, c) = (l, c + k) := by
  intro k
  induction k with
  | zero => intro l c; rfl
  | succ m ih =>
    intro l c
    rw [List.replicate_succ, List.foldl_cons]
    show (List.replicate m 'a').foldl advancePos (l, c + 1) = (l, c + (m + 1))
    rw [ih]
    refine Prod.ext rfl ?_
    show c + 1 + m = c + (m + 1)
    omega

lemma parse_unparsed_err (exts : Externals) (tpl tpl' : Template)
    (hp : tpl.parsed = false)
    (hrun : runLex exts (tpl.updatePosition.1.rawLen + 1) .content
      tpl.updatePosition.1 = tpl')
    (herr : tpl'.err.length > 0) :
    Template.parse exts tpl =
      (tpl', some (parseErrMsg tpl'.name tpl'.line tpl'.col tpl'.err)) := by
  simp only [Template.parse, hp, Bool.false_eq_true, if_false]
  rw [hrun, if_pos herr]

lemma srcR_position (k : Nat) : sourcePosition (srcR k) k = (1, k + 1) := by
  unfold sourcePosition
  have htake : (srcR k).take (k + 1) = List.replicate k 'a' ++ ['\x7b'] := by
    rw [srcR, List.take_append_eq_append_take, List.take_replicate,
      List.length_replicate, show min (k + 1) k = k from by omega,
      show k + 1 - k = 1 from by omega]
    rfl
  rw [htake, List.foldl_append, foldl_advance_replicate]
  show List.foldl advancePos (1, 0 + k) ['\x7b'] = (1, k + 1)
  rw [List.foldl_cons, List.foldl_nil]
  show advancePos (1, 0 + k) '\x7b' = (1, k + 1)
  rw [advancePos, if_neg (by decide : ¬ ('\x7b' : Char) = '\n')]
  refine Prod.ext rfl ?_
  show 0 + k + 1 = k + 1
  omega

/-- C3 amended: the line/column embedded in a parse error are the scanner's
position at the moment the error is raised, not the first byte of the
offending construct. For a source of `k` literal bytes followed by
`\x7b% foo %\x7d` with `foo` unregistered, the reported position is line 1,
column `k + 8` — the first byte of the closing `%\x7d` — while the Position
Tracker assigns the construct's first byte (offset `k`) line 1, column
`k + 1`. -/
theorem parse_error_position_amended (k : Nat) :
    FromString exts1 "t" (String.mk (srcR k)) none =
      .error (parseErrMsg "t" 1 (k + 8) "Tag 'foo' does not exist") ∧
    sourcePosition (srcR k) k = (1, k + 1) ∧ k + 8 ≠ k + 1 := by
  refine ⟨?_, srcR_position k, by omega⟩
  by_cases hk : k = 0
  · subst hk
    rfl
  · have h0 : ¬ (String.mk (srcR k)).length = 0 := by
      show ¬ (srcR k).length = 0
      rw [srcR_length]
      omega
    have hnt : newTemplate "t" (String.mk (srcR k)) none = .ok (c3T k 0 0 0 0 []) := by
      unfold newTemplate
      rw [if_neg h0]
      congr 1
      simp only [c3T, Template.mk.injEq, and_true, true_and]
      show (srcR k).length = k + 9
      exact srcR_length k
    have hup : (c3T k 0 0 0 0 [] : Template).updatePosition = (c3T k 0 0 0 1 [], true) := by
      have h := updatePosition_step (c3T k 0 0 0 0 [])
        (by show (0 : Nat) < k + 9; omega)
        (by show (srcR k).getD 0 ' ' ≠ '\n'
            rw [srcR_getD_lt k 0 (by omega)]
            decide)
      exact h
    have hscan := scan_run exts1 k 10 (c3T k 0 0 0 1 [])
      (by show k + 9 = (srcR k).length; rw [srcR_length])
      (by
        intro i hi
        show (srcR k).getD (0 + i) ' ' = 'a'
        rw [Nat.zero_add]
        exact srcR_getD_lt k i hi)
      (by show 0 + k < (srcR k).length; rw [srcR_length]; omega)
      (by
        show (srcR k).getD (0 + k) ' ' ≠ '\n'
        rw [Nat.zero_add]
        have h := srcR_getD_add k 0
        rw [Nat.add_zero] at h
        rw [h]
        decide)
    have hT : ({ c3T k 0 0 0 1 [] with pos := 0 + k, col := 1 + k, length := 0 + k } : Template) = c3T k k 0 k (k + 1) [] := by
      simp only [c3T, Template.mk.injEq, and_true, true_and]
      omega
    have hrun : runLex exts1
        (((c3T k 0 0 0 0 [] : Template).updatePosition.1).rawLen + 1) .content
        ((c3T k 0 0 0 0 [] : Template).updatePosition.1) =
        { c3T k (k + 7) (k + 2) 5 (k + 8) [cnK k] with
            err := "Tag 'foo' does not exist" } := by
      rw [hup]
      show runLex exts1 (k + 10) .content (c3T k 0 0 0 1 []) = _
      rw [hscan]
      show runLex exts1 10 .content ({ c3T k 0 0 0 1 [] with pos := 0 + k, col := 1 + k, length := 0 + k } : Template) = _
      rw [hT, c3_tail k hk]
    have hparse := parse_unparsed_err exts1 (c3T k 0 0 0 0 []) _
      (by simp [c3T]) hrun
      (by show "Tag 'foo' does not exist".length > 0; decide)
    unfold FromString
    rw [hnt]
    show (match Template.parse exts1 (c3T k 0 0 0 0 []) with
      | (_, some e) => (Except.error e : Except String Template)
      | (tpl, none) => .ok tpl) = _
    rw [hparse]
    rfl
